import Mathlib

attribute [local semireducible] Rat.add Rat.mul Rat.sub Rat.inv

/-!
A shallow embedding of the `content-risk-control` decision pipeline.

Go source conventions used throughout this embedding:
* Go `float32` scores are modelled as `ℚ`.  All scores occurring in the
  program are small decimal constants (40, 50, …, 80) and the threshold
  arithmetic `float32(T)*0.7` rounds, for the configured `T = 70`, to
  exactly `49.0` in `float32`, which agrees with the rational `7/10 * 70`;
  likewise `0.5` is exact in binary, so the rational model agrees with the
  float computation at every point the claims mention.
* Go `string` is modelled as `String`; `strings.Contains` is byte-level
  substring search, which on valid UTF-8 data coincides with rune-level
  (i.e. `Char`-list) substring search because UTF-8 is self-synchronizing.
* A Go `map[K]V` that is only queried by key is modelled as an association
  list; where the program *iterates* over a map (an unordered operation)
  the embedding takes the iteration order as an explicit list parameter.
* A fallible Go call `(T, error)` is modelled as `Option T`
  (`none` ≙ non-nil error) or `Except String T` when the error value
  itself matters.
* Network and filesystem effects are modelled as explicit oracle
  parameters (`Option response`, `String → Option (List String)`).
-/

/-- `model.ResultType` (part_000): Pass=0, Review=1, Reject=2, Warning=3. -/
inductive ResultType where
  | pass
  | review
  | reject
  | warning
deriving DecidableEq, Repr

/-- `model.RiskType` (part_000). -/
inductive RiskType where
  | unknown
  | sensitiveWord
  | spam
  | harassment
  | hateSpeech
  | violence
  | adult
  | contextViolation
  | suspiciousBehavior
deriving DecidableEq, Repr

/-- `model.RiskItem` (part_000). `Details` is `map[string]string`, kept as an
association list in insertion order. -/
structure RiskItem where
  type : RiskType
  score : ℚ
  description : String
  details : List (String × String)
deriving DecidableEq, Repr

/-- `model.ContextItem` (part_000). -/
structure ContextItem where
  content : String
  userID : String
  timestamp : Int
  contentID : String
deriving DecidableEq, Repr

/-- `model.CheckContext` (part_000). -/
structure CheckContext where
  content : String
  userID : String
  scene : String
  contextItems : List ContextItem
  extraData : List (String × String)
deriving DecidableEq, Repr

/-- `model.CheckResult` (part_000). -/
structure CheckResult where
  result : ResultType
  riskScore : ℚ
  risks : List RiskItem
  requestID : String
  suggestion : String
  costTime : Int
  extra : List (String × String)
deriving DecidableEq, Repr

/-- `model.CheckRequest` (part_000). -/
structure CheckRequest where
  content : String
  userID : String
  scene : String
  requestID : String
  extraData : List (String × String)
deriving DecidableEq, Repr

/-- `model.BatchCheckResult` (part_000). -/
structure BatchCheckResult where
  batchID : String
  results : List CheckResult
  totalCostTime : Int
deriving DecidableEq, Repr

/-- Whether `p` is a (character-level) prefix of `s`. -/
def prefixB : List Char → List Char → Bool
  | [], _ => true
  | _ :: _, [] => false
  | p :: ps, c :: cs => p == c && prefixB ps cs

/-- Whether `pat` occurs as a contiguous segment of `s`. -/
def infixB (pat : List Char) : List Char → Bool
  | [] => pat.isEmpty
  | c :: rest => prefixB pat (c :: rest) || infixB pat rest

/-- Go `strings.Contains(s, sub)`; for valid UTF-8 inputs byte-level search
coincides with this rune-level search. -/
def goContains (s sub : String) : Bool :=
  infixB sub.data s.data

/-- Go `strings.ToLower`; the inputs in this development are CJK text plus
ASCII, on which `Char.toLower` agrees with the Go function. -/
def goToLower (s : String) : String :=
  ⟨s.data.map Char.toLower⟩

/-- `harassmentKeywords` (harassment_detector.go, lines 11-14). -/
def harassmentKeywords : List String :=
  ["骚扰", "威胁", "欺凌", "攻击", "人身攻击", "侮辱", "歧视",
   "性骚扰", "跟踪", "恐吓", "霸凌", "黑料", "隐私", "私人信息"]

/-- `repeatMessageThreshold` (harassment_detector.go, line 17). -/
def repeatMessageThreshold : Nat := 3

/-- Go `string(rune(n))`: a one-character string holding code point `n`. -/
def goRuneString (n : Nat) : String :=
  String.mk [Char.ofNat n]

/-- `HarassmentDetector.countSameUserRepeatMessages` (harassment_detector.go,
lines 83-98). -/
def countSameUserRepeatMessages (ctx : CheckContext) : Nat :=
  if ctx.contextItems.isEmpty then 0
  else (ctx.contextItems.countP (fun it => it.userID == ctx.userID)) + 1

/-- Distinct elements of a list, first occurrence kept, in first-appearance
order. -/
def distinctFirst (seen : List String) : List String → List String
  | [] => []
  | x :: xs =>
      if x ∈ seen then distinctFirst seen xs
      else x :: distinctFirst (x :: seen) xs

/-- `HarassmentDetector.isTargetingUser` (harassment_detector.go, lines
101-125).  The Go code iterates the `targetCounts` map in unspecified order
and returns the first user with count ≥ 2; this embedding resolves that
iteration in first-appearance order of the non-self users (a deterministic
refinement, and exact whenever at most one user qualifies). -/
def isTargetingUser (ctx : CheckContext) : Bool × String :=
  if ctx.contextItems.length < 2 then (false, "")
  else
    let others := (ctx.contextItems.filter (fun it => it.userID != ctx.userID)).map (·.userID)
    let candidates := distinctFirst [] others
    match candidates.find? (fun u => 2 ≤ others.countP (fun v => v == u)) with
    | some u => (true, u)
    | none => (false, "")

/-- `HarassmentDetector.Detect` (harassment_detector.go, lines 29-80).
The detector never returns a non-nil error. -/
def harassmentDetect (ctx : CheckContext) : List RiskItem :=
  if ctx.content == "" then []
  else
    let content := goToLower ctx.content
    let keywordRisks : List RiskItem :=
      match harassmentKeywords.find? (fun kw => goContains content kw) with
      | some kw =>
          [{ type := .harassment, score := 70, description := "内容包含骚扰相关关键词",
             details := [("keyword", kw)] }]
      | none => []
    let contextRisks : List RiskItem :=
      if ctx.contextItems.length > 0 then
        let repeatRisks :=
          let sameUserRepeatCount := countSameUserRepeatMessages ctx
          if repeatMessageThreshold ≤ sameUserRepeatCount then
            [{ type := .harassment, score := 65, description := "检测到重复发送消息的骚扰模式",
               details := [("repeat_count", goRuneString sameUserRepeatCount)] }]
          else []
        let targetingRisks :=
          match isTargetingUser ctx with
          | (true, targetUser) =>
              [{ type := .harassment, score := 60, description := "检测到针对特定用户的频繁消息",
                 details := [("target_user", targetUser)] }]
          | (false, _) => []
        repeatRisks ++ targetingRisks
      else []
    keywordRisks ++ contextRisks

/-- `SensitiveWords` (part_002).  The Go `words map[string]bool` only ever
holds `true` values, so it is a set; it is kept here as a duplicate-free
list in insertion order. -/
structure SensitiveWords where
  words : List String
  filePaths : List String
deriving DecidableEq, Repr

/-- Insertion into the `words` set (`words[word] = true` on a Go map). -/
def insertWord (ws : List String) (w : String) : List String :=
  if w ∈ ws then ws else ws ++ [w]

/-- The words contributed by one file's lines in
`SensitiveWords.loadFromFile` (part_002, lines 473-490): each line is
trimmed, blank lines and `#`-comment lines are skipped. -/
def fileWords (lines : List String) : List String :=
  (lines.map String.trim).filter (fun w => ¬ (w == "" || w.startsWith "#"))

/-- `SensitiveWords.Update` (part_002, lines 450-470).  `fs` is the
filesystem oracle: `fs path = none` models an unreadable file (the Go code
logs the error and continues with the remaining paths).  The candidate set
is built across all paths and the active set is replaced only when the
candidate is non-empty; `Update` itself always returns a nil error. -/
def sensitiveWordsUpdate (fs : String → Option (List String)) (sw : SensitiveWords) :
    SensitiveWords :=
  let newWords := sw.filePaths.foldl
    (fun acc path =>
      match fs path with
      | none => acc
      | some lines => (fileWords lines).foldl insertWord acc)
    []
  if newWords.isEmpty then sw else { sw with words := newWords }

/-- `SensitiveWords.ContainsWord` (part_002, lines 511-526).  The Go code
iterates the word map in unspecified order and returns the first word
contained in the content; this embedding scans `words` in insertion order
(a deterministic refinement, exact whenever at most one word matches). -/
def containsWord (sw : SensitiveWords) (content : String) : Bool × String :=
  if content == "" then (false, "")
  else
    match sw.words.find? (fun w => goContains content w) with
    | some w => (true, w)
    | none => (false, "")

/-- `SensitiveWordDetector.Detect` (part_007).  Never returns a non-nil
error. -/
def sensitiveWordDetect (sw : SensitiveWords) (ctx : CheckContext) : List RiskItem :=
  if ctx.content == "" then []
  else
    match containsWord sw ctx.content with
    | (false, _) => []
    | (true, word) =>
        [{ type := .sensitiveWord, score := 80, description := "内容包含敏感词: " ++ word,
           details := [("word", word)] }]

/-- A value stored in a rule's free-form `Config map[string]interface{}`
(rule_engine.go).  Only the `string` case is ever inspected (by the
`.(string)` assertion in `evaluateRule`). -/
inductive ConfigVal where
  | str (s : String)
  | other
deriving DecidableEq, Repr

/-- `Rule` (rule_engine.go, lines 15-24). -/
structure Rule where
  id : String
  name : String
  description : String
  enabled : Bool
  priority : Int
  action : String
  score : ℚ
  config : List (String × ConfigVal)
deriving DecidableEq, Repr, Inhabited

/-- `RuleAction` (rule_engine.go, lines 34-37). -/
structure RuleAction where
  name : String
  description : String
deriving DecidableEq, Repr

/-- `RuleSet` (rule_engine.go, lines 27-31); the `id → rule` map is an
association list in the iteration order the Go map would yield. -/
structure RuleSet where
  rules : List (String × Rule)
  actions : List (String × RuleAction)
  categories : List (String × String)
deriving DecidableEq, Repr

/-- `RuleEngineResult` (rule_engine.go, lines 40-46). -/
structure RuleEngineResult where
  result : ResultType
  score : ℚ
  risks : List RiskItem
  suggestion : String
  hasExplicitResult : Bool
deriving DecidableEq, Repr

/-- `RuleEngine` (rule_engine.go, lines 49-55): the reloadable catalog plus
the `initialized` flag set by `loadRules`. -/
structure RuleEngine where
  ruleSet : RuleSet
  isInit : Bool
deriving DecidableEq, Repr

/-- `RuleEngine.getActionType` (rule_engine.go, lines 179-190). -/
def getActionType (action : String) : ResultType :=
  match action with
  | "block" => .reject
  | "review" => .review
  | "mark" => .warning
  | _ => .pass

/-- `RuleEngine.getRiskTypeFromCategory` (rule_engine.go, lines 256-273). -/
def getRiskTypeFromCategory (category : String) : RiskType :=
  match category with
  | "sensitive" => .sensitiveWord
  | "spam" => .spam
  | "harassment" => .harassment
  | "hate_speech" => .hateSpeech
  | "violence" => .violence
  | "adult" => .adult
  | _ => .unknown

/-- `RuleEngine.generateSuggestion` (rule_engine.go, lines 251-253). -/
def generateRuleSuggestion (rule : Rule) : String :=
  "内容违反了\"" ++ rule.name ++ "\"规则，原因：" ++ rule.description

/-- Key lookup in a rule's `Config` map. -/
def lookupConfig (cfg : List (String × ConfigVal)) (key : String) : Option ConfigVal :=
  (cfg.find? (fun p => p.1 == key)).map (·.2)

/-- `RuleEngine.evaluateRule` (rule_engine.go, lines 193-248).  Every
branch of the Go function falls through to `return false, nil`; the
branching structure is kept so the control flow can be compared with the
source. -/
def evaluateRule (rule : Rule) (ctx : CheckContext) (existingRiskTypes : List RiskType) :
    Bool × Option RiskItem :=
  match rule.id with
  | "sensitive_words" =>
      match lookupConfig rule.config "category" with
      | some (.str categoryStr) =>
          let riskType := getRiskTypeFromCategory categoryStr
          if riskType ∈ existingRiskTypes then (false, none)
          else (false, none)
      | _ => (false, none)
  | "spam_detection" =>
      if RiskType.spam ∈ existingRiskTypes then (false, none)
      else (false, none)
  | "context_analysis" =>
      if ctx.contextItems.isEmpty then (false, none)
      else if RiskType.contextViolation ∈ existingRiskTypes then (false, none)
      else (false, none)
  | "user_reputation" =>
      if RiskType.suspiciousBehavior ∈ existingRiskTypes then (false, none)
      else (false, none)
  | _ => (false, none)

/-- `RuleEngine.sortRulesByPriority` (rule_engine.go, lines 276-292): the
naive in-place exchange sort, descending by priority, applied to the map
values in whatever order `rules` lists them. -/
def sortRulesByPriority (ruleList : List Rule) : List Rule := Id.run do
  let mut rs := ruleList.toArray
  for i in [0 : rs.size - 1] do
    for j in [i + 1 : rs.size] do
      if rs[i]!.priority < rs[j]!.priority then
        rs := rs.swap! i j
  return rs.toList

/-- The rule loop of `RuleEngine.Evaluate` (rule_engine.go, lines 135-175),
parameterized by the per-rule evaluation function `f` (the method
`evaluateRule` in the source).  State: accumulated risks, the running
`highestScore` and its `highestScoreResult`. -/
def evalRulesLoop (f : Rule → CheckContext → List RiskType → Bool × Option RiskItem)
    (ctx : CheckContext) (types : List RiskType) :
    List Rule → List RiskItem → ℚ → ResultType → RuleEngineResult
  | [], risks, hs, hsr =>
      { result := if 0 < hs then hsr else .pass, score := hs, risks := risks,
        suggestion := "", hasExplicitResult := 0 < hs }
  | rule :: rest, risks, hs, hsr =>
      if rule.enabled = false then evalRulesLoop f ctx types rest risks hs hsr
      else
        match f rule ctx types with
        | (false, _) => evalRulesLoop f ctx types rest risks hs hsr
        | (true, item?) =>
            let risks' := match item? with
              | some item => risks ++ [item]
              | none => risks
            let actionType := getActionType rule.action
            let score := rule.score
            let hs' := if hs < score then score else hs
            let hsr' := if hs < score then actionType else hsr
            if actionType = .reject then
              { result := .reject, score := score, risks := risks',
                suggestion := generateRuleSuggestion rule, hasExplicitResult := true }
            else evalRulesLoop f ctx types rest risks' hs' hsr'

/-- `RuleEngine.Evaluate` (rule_engine.go, lines 109-176).  `none` models
the `rule engine not initialized` error. -/
def ruleEngineEvaluate (e : RuleEngine) (ctx : CheckContext) (existingRisks : List RiskItem) :
    Option RuleEngineResult :=
  if e.isInit = false then none
  else
    let existingRiskTypes := existingRisks.map (·.type)
    let sortedRules := sortRulesByPriority (e.ruleSet.rules.map (·.2))
    some (evalRulesLoop evaluateRule ctx existingRiskTypes sortedRules [] 0 .pass)

/-- The `content_check` section of `config.Config` (config.go), restricted
to fields the pipeline reads.  `cacheTTL` is in seconds as in the config
file (converted to nanoseconds at the caching site, matching
`time.Duration(cfg.ContentCheck.CacheTTL) * time.Second`). -/
structure Config where
  riskScoreThreshold : ℚ
  cacheTTL : Int
  batchCheckMaxSize : Nat
deriving DecidableEq, Repr

/-- One entry of the service's `detectors map[string]detector.Detector`.
`detect ctx = none` models a non-nil error from `Detect` (fail-open at the
orchestrator).  `doContentCheck` iterates this map in Go's unordered map
order, so the pipeline below takes the iteration order as a list. -/
structure NamedDetector where
  name : String
  detect : CheckContext → Option (List RiskItem)

/-- Step 1 of `doContentCheck` (part_001, lines 315-330): run each detector
in the given iteration order, skipping failed ones, accumulating
`(allRisks, totalScore, maxScore)`. -/
def runDetectors (ds : List NamedDetector) (ctx : CheckContext) :
    List RiskItem × ℚ × ℚ :=
  ds.foldl
    (fun acc d =>
      match d.detect ctx with
      | none => acc
      | some risks =>
          risks.foldl
            (fun acc2 risk =>
              (acc2.1 ++ [risk], acc2.2.1 + risk.score,
               if acc2.2.2 < risk.score then risk.score else acc2.2.2))
            acc)
    ([], 0, 0)

/-- The inner merge of one engine risk into `allRisks` (part_001, lines
339-355): the first accumulated item of the same type absorbs the higher
score (and then the engine item's description); a type not yet present is
appended. -/
def mergeEngineRisk : List RiskItem → RiskItem → List RiskItem
  | [], risk => [risk]
  | existing :: rest, risk =>
      if existing.type = risk.type then
        (if existing.score < risk.score then
          { existing with score := risk.score, description := risk.description }
         else existing) :: rest
      else existing :: mergeEngineRisk rest risk

/-- Step 2's merge loop of `doContentCheck` (part_001, lines 338-360):
fold every engine risk into the accumulated list, updating `maxScore` from
the engine risk's own score. -/
def mergeEngineRisks (allRisks : List RiskItem) (engineRisks : List RiskItem) (maxScore : ℚ) :
    List RiskItem × ℚ :=
  engineRisks.foldl
    (fun acc risk =>
      (mergeEngineRisk acc.1 risk, if acc.2 < risk.score then risk.score else acc.2))
    (allRisks, maxScore)

/-- Step 3 of `doContentCheck` (part_001, lines 373-386): threshold
banding of the final maximum score against the configured
`RiskScoreThreshold`. -/
def classifyScore (threshold score : ℚ) : ResultType :=
  if threshold ≤ score then .reject
  else if (7 / 10) * threshold ≤ score then .review
  else if (1 / 2) * threshold ≤ score then .warning
  else .pass

/-- Go `fmt.Sprintf("%.2f", x)` for the non-negative scores of this
program, modelled as half-up rounding to two decimals (all concrete totals
in this development are integral, where the two agree). -/
def format2f (q : ℚ) : String :=
  let n : Int := (q * 100 + 1 / 2).floor
  let frac := n % 100
  toString (n / 100) ++ "." ++ (if frac < 10 then "0" else "") ++ toString frac

/-- `ContentCheckService.generateSuggestion` (part_001, lines 400-414). -/
def generateSuggestion (result : ResultType) (risks : List RiskItem) : String :=
  match result with
  | .reject =>
      match risks with
      | risk :: _ => "内容包含违规信息，原因：" ++ risk.description
      | [] => "内容未通过审核，请修改后重试"
  | .review => "内容需要人工审核，请等待审核结果"
  | .warning => "内容存在风险，建议修改"
  | _ => "内容审核通过"

/-- The banding tail of `doContentCheck` (part_001, lines 373-396):
classify `finalScore`, generate the suggestion, and attach the summed
total score. -/
def bandedResult (cfg : Config) (risks : List RiskItem) (finalScore totalScore : ℚ) :
    CheckResult :=
  let result := classifyScore cfg.riskScoreThreshold finalScore
  { result := result, riskScore := finalScore, risks := risks,
    requestID := "", suggestion := generateSuggestion result risks,
    costTime := 0, extra := [("total_score", format2f totalScore)] }

/-- `ContentCheckService.doContentCheck` (part_001, lines 300-397).
`ds` is the iteration order of the service's detector map for this call.
`RequestID`/`CostTime` are zero here; the callers overwrite them. -/
def doContentCheck (ds : List NamedDetector) (engine : RuleEngine) (cfg : Config)
    (content userID scene : String) (contextItems : List ContextItem)
    (extraData : List (String × String)) : CheckResult :=
  let checkCtx : CheckContext :=
    { content := content, userID := userID, scene := scene,
      contextItems := contextItems, extraData := extraData }
  let acc := runDetectors ds checkCtx
  let allRisks := acc.1
  let totalScore := acc.2.1
  let maxScore := acc.2.2
  match ruleEngineEvaluate engine checkCtx allRisks with
  | none =>
      -- engine failure: proceed on detector results alone (fail-open)
      bandedResult cfg allRisks maxScore totalScore
  | some engineResult =>
      let merged := mergeEngineRisks allRisks engineResult.risks maxScore
      if engineResult.hasExplicitResult then
        { result := engineResult.result, riskScore := engineResult.score,
          risks := merged.1, requestID := "",
          suggestion := engineResult.suggestion, costTime := 0, extra := [] }
      else
        bandedResult cfg merged.1 merged.2 totalScore

/-- One Redis cache entry as written by `cacheResult`: the marshalled
result plus its expiry instant (nanoseconds). -/
structure CacheEntry where
  value : CheckResult
  expiresAt : Int
deriving DecidableEq, Repr

/-- The result cache keyed by `content_check:<hash>`. -/
structure CacheState where
  entries : List (String × CacheEntry)
deriving DecidableEq, Repr

/-- Redis `GET` as used by `getCachedResult` (part_001, lines 417-433): a
present, unexpired key unmarshals to the stored result; anything else
(missing key, expired key, backend failure) is a miss. -/
def cacheGet (st : CacheState) (now : Int) (key : String) : Option CheckResult :=
  match st.entries.find? (fun p => p.1 == key) with
  | some p => if now < p.2.expiresAt then some p.2.value else none
  | none => none

/-- Redis `SET key value ttl` as used by `cacheResult` (part_001, lines
436-451): overwrite the key with expiry `now + ttl`. -/
def cacheSet (st : CacheState) (now ttl : Int) (key : String) (v : CheckResult) :
    CacheState :=
  { entries := (key, ⟨v, now + ttl⟩) ::
      st.entries.filter (fun p => ¬ (p.1 == key)) }

/-- `fmt.Sprintf("req_%d_%s", time.Now().UnixNano(), userID)`
(part_001, line 154). -/
def mkRequestID (now : Int) (userID : String) : String :=
  "req_" ++ toString now ++ "_" ++ userID

/-- `ContentCheckService.CheckContent` (part_001, lines 148-184).
Oracles: `hashFn` stands for the MD5 `model.HashString`, `now` for
`time.Now().UnixNano()` at entry, `elapsed` for the measured
`time.Since(startTime).Milliseconds()`.  Returns the result (or `none` for
`ErrEmptyContent`) and the updated cache. -/
def checkContent (ds : List NamedDetector) (engine : RuleEngine) (cfg : Config)
    (hashFn : String → String) (st : CacheState) (now elapsed : Int)
    (content userID scene : String) (extraData : List (String × String)) :
    Option CheckResult × CacheState :=
  if content == "" then (none, st)
  else
    let requestID := mkRequestID now userID
    let cacheKey := "content_check:" ++ hashFn content
    match cacheGet st now cacheKey with
    | some cachedResult =>
        (some { cachedResult with requestID := requestID, costTime := 0 }, st)
    | none =>
        let result0 := doContentCheck ds engine cfg content userID scene [] extraData
        let result := { result0 with requestID := requestID, costTime := elapsed }
        if result.result ≠ .reject then
          (some result, cacheSet st now (cfg.cacheTTL * 1000000000) cacheKey result)
        else
          (some result, st)

/-- The default Pass placeholder for a failed batch item
(part_001, lines 262-270). -/
def defaultPassResult (batchID : String) (i : Nat) : CheckResult :=
  { result := .pass, riskScore := 0, risks := [],
    requestID := "batch_" ++ batchID ++ "_idx_" ++ toString i,
    suggestion := "", costTime := 0, extra := [("error", "处理失败")] }

/-- The result-collection loop of `BatchCheckContent` (part_001, lines
245-255): tasks deliver `(index, outcome)` over a channel in completion
order `arrival`; failed outcomes update `lastError`, successful ones go
into `resultMap`. -/
def collectBatch (arrival : List (Nat × Except String CheckResult)) :
    List (Nat × CheckResult) × Option String :=
  arrival.foldl
    (fun acc task =>
      match task.2 with
      | .error e => (acc.1, some e)
      | .ok r => (acc.1 ++ [(task.1, r)], acc.2))
    ([], none)

/-- The reassembly loop of `BatchCheckContent` (part_001, lines 257-271):
original input order, failed slots filled with the default Pass
placeholder. -/
def assembleResults (resultMap : List (Nat × CheckResult)) (batchID : String) (n : Nat) :
    List CheckResult :=
  (List.range n).map fun i =>
    match resultMap.find? (fun p => p.1 == i) with
    | some p => p.2
    | none => defaultPassResult batchID i

/-- The truncation step of `BatchCheckContent` (part_001, lines 216-218):
inputs beyond `BatchCheckMaxSize` are silently dropped. -/
def truncatedItems (cfg : Config) (items : List CheckRequest) : List CheckRequest :=
  if cfg.batchCheckMaxSize < items.length then items.take cfg.batchCheckMaxSize else items

/-- `ContentCheckService.BatchCheckContent` (part_001, lines 211-278).
`taskEval` abstracts one concurrent `CheckContent` invocation (index and
request to outcome); `arrival` is the channel delivery order, a
permutation of the dispatched tasks.  `none` models `ErrInvalidRequest`
for an empty batch; otherwise the batch result is paired with the last
error seen (`nil` when every task succeeded). -/
def batchCheckContent (taskEval : Nat → CheckRequest → Except String CheckResult)
    (cfg : Config) (items : List CheckRequest) (batchID : String)
    (arrival : List (Nat × CheckRequest)) :
    Option (BatchCheckResult × Option String) :=
  if items.isEmpty then none
  else
    let items' := truncatedItems cfg items
    let collected := collectBatch (arrival.map (fun t => (t.1, taskEval t.1 t.2)))
    let results := assembleResults collected.1 batchID items'.length
    some ({ batchID := batchID, results := results, totalCostTime := 0 }, collected.2)

/-- `AnalysisResult` (part_008, lines 37-44) and the structurally identical
`SemanticAnalysisResult` (part_006, lines 58-65). -/
structure AnalysisResult where
  isToxic : Bool
  categories : List (String × ℚ)
  explanation : String
  intent : String
  sentiment : String
  risk : ℚ
deriving DecidableEq, Repr

/-- `harmfulWords` of `NLPDetector.fallbackDetect` (part_008, lines
234-237). -/
def nlpHarmfulWords : List String :=
  ["傻逼", "混蛋", "垃圾", "白痴", "废物", "贱人",
   "去死", "杀了你", "打死你", "灭了你", "弄死你"]

/-- `threatPatterns` of `NLPDetector.fallbackDetect` (part_008, lines
252-254). -/
def nlpThreatPatterns : List String :=
  ["小心", "当心", "威胁", "后果", "找你", "报复"]

/-- `rejectionWords` of `NLPDetector.containsRejection` (part_008, lines
293-297). -/
def nlpRejectionWords : List String :=
  ["不要", "别", "停止", "别再", "不想", "拒绝",
   "别来", "讨厌", "烦人", "骚扰", "别发"]

/-- `NLPDetector.containsRejection` (part_008, lines 292-305). -/
def nlpContainsRejection (text : String) : Bool :=
  nlpRejectionWords.any (fun w => goContains text w)

/-- `NLPDetector.fallbackDetect` (part_008, lines 228-289): keyword and
threat-pattern scan plus the rejection-then-continue context heuristic;
never makes a network call and never returns an error. -/
def nlpFallbackDetect (ctx : CheckContext) : List RiskItem :=
  let keywordRisks : List RiskItem :=
    match nlpHarmfulWords.find? (fun w => goContains ctx.content w) with
    | some w => [{ type := .harassment, score := 80,
                   description := "检测到敏感词: " ++ w, details := [] }]
    | none => []
  let threatRisks : List RiskItem :=
    if nlpThreatPatterns.any (fun w => goContains ctx.content w) then
      [{ type := .harassment, score := 75,
         description := "检测到潜在威胁性语言", details := [] }]
    else []
  let contextRisks : List RiskItem :=
    if ctx.contextItems.length > 0 then
      if ctx.contextItems.any
          (fun it => it.userID != ctx.userID && nlpContainsRejection it.content) then
        [{ type := .contextViolation, score := 70,
           description := "检测到可能在对方拒绝后继续发送消息", details := [] }]
      else []
    else []
  keywordRisks ++ threatRisks ++ contextRisks

/-- `NLPDetector.getIntentRiskType` (part_008, lines 319-326). -/
def nlpGetIntentRiskType (intent : String) : RiskType :=
  match intent with
  | "harmful" => .harassment
  | _ => .unknown

/-- `NLPDetector.getIntentDescription` (part_008, lines 329-336). -/
def nlpGetIntentDescription (intent : String) : String :=
  match intent with
  | "harmful" => "有害"
  | _ => intent

/-- The risk-conversion tail of `NLPDetector.Detect` on a successful
analysis (part_008, lines 124-163). -/
def nlpAnalysisRisks (threshold : ℚ) (ctx : CheckContext) (res : AnalysisResult) :
    List RiskItem :=
  let toxicRisks : List RiskItem :=
    if res.isToxic && threshold < res.risk then
      [{ type := .harassment, score := res.risk * 100, description := res.explanation,
         details := (res.categories.filter (fun c => threshold < c.2)).map
           (fun c => (c.1, format2f c.2)) }]
    else []
  let intentRisks : List RiskItem :=
    if res.intent != "" && res.intent != "neutral" && threshold < res.risk then
      [{ type := nlpGetIntentRiskType res.intent, score := res.risk * 80,
         description := "检测到" ++ nlpGetIntentDescription res.intent ++ "意图",
         details := [] }]
    else []
  let contextContent := ctx.contextItems.map (·.content)
  let contextRisks : List RiskItem :=
    if contextContent.length > 0 && contextContent.any nlpContainsRejection then
      [{ type := .contextViolation, score := res.risk * 90,
         description := "检测到上下文相关的风险行为", details := [] }]
    else []
  toxicRisks ++ intentRisks ++ contextRisks

/-- One call of `NLPDetector.Detect` (part_008, lines 103-164) as a step of
the fallback-latch state machine.  Input: the current `fallbackMode` flag
and the network oracle for this call (`none` ≙ the OpenAI call fails).
Output: the produced risks, the next `fallbackMode`, and whether a network
call was attempted. -/
def nlpDetectStep (threshold : ℚ) (fallback : Bool) (ctx : CheckContext)
    (net : Option AnalysisResult) : List RiskItem × Bool × Bool :=
  if fallback then (nlpFallbackDetect ctx, true, false)
  else
    match net with
    | none => (nlpFallbackDetect ctx, true, true)
    | some res => (nlpAnalysisRisks threshold ctx res, false, true)

/-- `harmfulWords` of `SemanticNLPDetector.fallbackDetect` (part_006, lines
299-302). -/
def semanticHarmfulWords : List String :=
  ["傻逼", "混蛋", "垃圾", "白痴", "废物", "贱人",
   "去死", "杀了你", "打死你", "灭了你", "弄死你"]

/-- `threatPatterns` of `SemanticNLPDetector.fallbackDetect` (part_006,
lines 317-319). -/
def semanticThreatPatterns : List String :=
  ["小心", "当心", "威胁", "后果", "找你", "报复"]

/-- `rejectionWords` of `SemanticNLPDetector.containsRejection` (part_006,
lines 358-361). -/
def semanticRejectionWords : List String :=
  ["不要", "别", "停止", "别再", "不想", "拒绝",
   "别来", "讨厌", "烦人", "骚扰", "别发"]

/-- `SemanticNLPDetector.containsRejection` (part_006, lines 357-370). -/
def semanticContainsRejection (text : String) : Bool :=
  semanticRejectionWords.any (fun w => goContains text w)

/-- `SemanticNLPDetector.fallbackDetect` (part_006, lines 293-354). -/
def semanticNlpFallbackDetect (ctx : CheckContext) : List RiskItem :=
  let keywordRisks : List RiskItem :=
    match semanticHarmfulWords.find? (fun w => goContains ctx.content w) with
    | some w => [{ type := .harassment, score := 80,
                   description := "检测到敏感词: " ++ w, details := [] }]
    | none => []
  let threatRisks : List RiskItem :=
    if semanticThreatPatterns.any (fun w => goContains ctx.content w) then
      [{ type := .harassment, score := 75,
         description := "检测到潜在威胁性语言", details := [] }]
    else []
  let contextRisks : List RiskItem :=
    if ctx.contextItems.length > 0 then
      if ctx.contextItems.any
          (fun it => it.userID != ctx.userID && semanticContainsRejection it.content) then
        [{ type := .contextViolation, score := 70,
           description := "检测到可能在对方拒绝后继续发送消息", details := [] }]
      else []
    else []
  keywordRisks ++ threatRisks ++ contextRisks

/-- `SemanticNLPDetector.getIntentRiskType` (part_006, lines 384-391). -/
def semanticGetIntentRiskType (intent : String) : RiskType :=
  match intent with
  | "harmful" => .harassment
  | _ => .unknown

/-- `SemanticNLPDetector.getIntentDescription` (part_006, lines 394-401). -/
def semanticGetIntentDescription (intent : String) : String :=
  match intent with
  | "harmful" => "有害"
  | _ => intent

/-- The risk-conversion tail of `SemanticNLPDetector.Detect` on a
successful analysis (part_006, lines 152-191). -/
def semanticNlpAnalysisRisks (threshold : ℚ) (ctx : CheckContext) (res : AnalysisResult) :
    List RiskItem :=
  let toxicRisks : List RiskItem :=
    if res.isToxic && threshold < res.risk then
      [{ type := .harassment, score := res.risk * 100, description := res.explanation,
         details := (res.categories.filter (fun c => threshold < c.2)).map
           (fun c => (c.1, format2f c.2)) }]
    else []
  let intentRisks : List RiskItem :=
    if res.intent != "" && res.intent != "neutral" && threshold < res.risk then
      [{ type := semanticGetIntentRiskType res.intent, score := res.risk * 80,
         description := "检测到" ++ semanticGetIntentDescription res.intent ++ "意图",
         details := [] }]
    else []
  let contextContent := ctx.contextItems.map (·.content)
  let contextRisks : List RiskItem :=
    if contextContent.length > 0 && contextContent.any semanticContainsRejection then
      [{ type := .contextViolation, score := res.risk * 90,
         description := "检测到上下文相关的风险行为", details := [] }]
    else []
  toxicRisks ++ intentRisks ++ contextRisks

/-- One call of `SemanticNLPDetector.Detect` (part_006, lines 131-192) as a
step of the fallback-latch state machine; `none` ≙ the local-LLM HTTP call
fails. -/
def semanticNlpDetectStep (threshold : ℚ) (fallback : Bool) (ctx : CheckContext)
    (net : Option AnalysisResult) : List RiskItem × Bool × Bool :=
  if fallback then (semanticNlpFallbackDetect ctx, true, false)
  else
    match net with
    | none => (semanticNlpFallbackDetect ctx, true, true)
    | some res => (semanticNlpAnalysisRisks threshold ctx res, false, true)

/-- A sequence of `Detect` calls against a latched detector: thread the
`fallbackMode` flag through `step`, recording for each call the produced
risks and whether a network call was attempted; also return the final
flag. -/
def runDetectorTrace
    (step : Bool → CheckContext → Option AnalysisResult → List RiskItem × Bool × Bool) :
    Bool → List (CheckContext × Option AnalysisResult) → List (List RiskItem × Bool) × Bool
  | fb, [] => ([], fb)
  | fb, (ctx, net) :: rest =>
      let s := step fb ctx net
      let t := runDetectorTrace step s.2.1 rest
      ((s.1, s.2.2) :: t.1, t.2)

/-- `AIRiskItem` (ai_detector.go, lines 45-50). -/
structure AIRisk where
  type : String
  score : ℚ
  description : String
  details : List (String × String)
deriving DecidableEq, Repr

/-- `AIResponseBody` (ai_detector.go, lines 37-42). -/
structure AIResponseBody where
  success : Bool
  risks : List AIRisk
  score : ℚ
  error : String
deriving DecidableEq, Repr

/-- `AIDetector.mapRiskType` (ai_detector.go, lines 155-176). -/
def aiMapRiskType (aiRiskType : String) : RiskType :=
  match aiRiskType with
  | "sensitive_word" => .sensitiveWord
  | "spam" => .spam
  | "harassment" => .harassment
  | "hate_speech" => .hateSpeech
  | "violence" => .violence
  | "adult" => .adult
  | "context_violation" => .contextViolation
  | "suspicious_behavior" => .suspiciousBehavior
  | _ => .unknown

/-- `AIDetector.Detect` (ai_detector.go, lines 71-152).  The detector is
stateless: it holds no fallback flag.  `net` is the HTTP oracle (`none` ≙
transport error, non-200 status, or an undecodable body).  Returns the
outcome (`none` ≙ a non-nil error) and whether a network call was
attempted. -/
def aiDetect (ctx : CheckContext) (net : Option AIResponseBody) :
    Option (List RiskItem) × Bool :=
  if ctx.content == "" then (some [], false)
  else
    match net with
    | none => (none, true)
    | some respBody =>
        if respBody.success = false then (none, true)
        else
          (some (respBody.risks.map fun aiRisk =>
            { type := aiMapRiskType aiRisk.type, score := aiRisk.score,
              description := aiRisk.description, details := aiRisk.details }), true)

/-! ### Concrete fixtures used by counterexamples and witnesses -/

/-- An initialized rule engine whose catalog is empty. -/
def engineEmpty : RuleEngine := ⟨⟨[], [], []⟩, true⟩

/-- The configuration shipped in the repository's config file:
`risk_score_threshold: 70`, `cache_ttl: 300`, `batch_check_max_size: 100`. -/
def cfg70 : Config := ⟨70, 300, 100⟩

/-- The `"harassment"` entry of the service's detector map. -/
def harassmentND : NamedDetector := ⟨"harassment", fun ctx => some (harassmentDetect ctx)⟩

/-- A word store holding the single word `敏感`. -/
def swDemo : SensitiveWords := ⟨["敏感"], ["config/sensitive_words.txt"]⟩

/-- The `"sensitive"` entry of the service's detector map, over `swDemo`. -/
def sensitiveND : NamedDetector := ⟨"sensitive", fun ctx => some (sensitiveWordDetect swDemo ctx)⟩

/-- A conversation where user `a` (the sender) has two prior messages and
user `b` two, so both context checks of the harassment detector fire. -/
def repeatItems : List ContextItem :=
  [⟨"x", "a", 0, "c1"⟩, ⟨"y", "a", 0, "c2"⟩, ⟨"z", "b", 0, "c3"⟩, ⟨"w", "b", 0, "c4"⟩]

/-- At most one risk item of each risk type. -/
def perTypeUnique (risks : List RiskItem) : Prop :=
  risks.Pairwise (fun a b => a.type ≠ b.type)

instance (risks : List RiskItem) : Decidable (perTypeUnique risks) := by
  unfold perTypeUnique; infer_instance

/-! ### Rule-engine helper lemmas -/

/-- Every branch of `evaluateRule` reports no match (rule_engine.go, lines
193-248: the dispatch arms contain only placeholder logic and fall through
to `return false, nil`). -/
lemma evaluateRule_no_match (rule : Rule) (ctx : CheckContext) (types : List RiskType) :
    evaluateRule rule ctx types = (false, none) := by
  unfold evaluateRule
  repeat' split
  all_goals simp

/-- With the concrete `evaluateRule`, the rule loop leaves its accumulator
untouched for every rule list. -/
lemma evalRulesLoop_no_match (ctx : CheckContext) (types : List RiskType) :
    ∀ (rules : List Rule) (risks : List RiskItem) (hs : ℚ) (hsr : ResultType),
      evalRulesLoop evaluateRule ctx types rules risks hs hsr =
        { result := if 0 < hs then hsr else .pass, score := hs, risks := risks,
          suggestion := "", hasExplicitResult := 0 < hs } := by
  intro rules
  induction rules with
  | nil => intro risks hs hsr; rfl
  | cons rule rest ih =>
      intro risks hs hsr
      unfold evalRulesLoop
      rw [evaluateRule_no_match]
      by_cases h : rule.enabled = false
      · simp only [h, if_true]; exact ih risks hs hsr
      · simp only [h, if_false]; exact ih risks hs hsr

/-- `RuleEngine.Evaluate` returns the same fixed no-result value for every
context and risk list (or the not-initialized error). -/
lemma ruleEngineEvaluate_const (e : RuleEngine) (ctx : CheckContext)
    (existingRisks : List RiskItem) :
    ruleEngineEvaluate e ctx existingRisks =
      if e.isInit then
        some { result := .pass, score := 0, risks := [], suggestion := "",
               hasExplicitResult := false }
      else none := by
  unfold ruleEngineEvaluate
  by_cases h : e.isInit
  · simp only [h, if_true, if_false, Bool.true_eq_false]
    rw [evalRulesLoop_no_match]
    norm_num
  · simp only [h]
    simp only [Bool.not_eq_true] at h
    simp [h]

/-- C2: on an initialized `RuleEngine`, whatever rules are loaded,
`Evaluate` returns `HasExplicitResult=false`, `Score=0`, `Result=Pass` and
an empty risk list (because `evaluateRule` matches no rule id), and
consequently `doContentCheck`'s explicit-result branch is never taken: the
verdict is always the threshold banding of the detector-accumulated
maximum score. -/
theorem rule_engine_always_no_result (e : RuleEngine) (ctx : CheckContext)
    (existingRisks : List RiskItem) (h : e.isInit = true) :
    ruleEngineEvaluate e ctx existingRisks =
      some { result := .pass, score := 0, risks := [], suggestion := "",
             hasExplicitResult := false }
    ∧ ∀ (ds : List NamedDetector) (cfg : Config) (c u s : String)
        (ci : List ContextItem) (ed : List (String × String)),
        doContentCheck ds e cfg c u s ci ed =
          bandedResult cfg (runDetectors ds ⟨c, u, s, ci, ed⟩).1
            (runDetectors ds ⟨c, u, s, ci, ed⟩).2.2
            (runDetectors ds ⟨c, u, s, ci, ed⟩).2.1 := by
  constructor
  · rw [ruleEngineEvaluate_const]
    simp [h]
  · intro ds cfg c u s ci ed
    simp only [doContentCheck, ruleEngineEvaluate_const, h, if_true]
    rfl

/-- Witness for `rule_engine_always_no_result` at the empty rule catalog
and a concrete context. -/
theorem rule_engine_always_no_result_witness :
    ruleEngineEvaluate engineEmpty ⟨"威胁", "a", "chat", [], []⟩ [] =
      some { result := .pass, score := 0, risks := [], suggestion := "",
             hasExplicitResult := false } :=
  (rule_engine_always_no_result engineEmpty ⟨"威胁", "a", "chat", [], []⟩ [] rfl).1

/-- If no rule before `r` is an enabled match whose action maps to Reject,
and `r` is an enabled match with a Reject action, the rule loop returns
`r`'s verdict immediately, independently of the rules after `r`. -/
lemma evalRulesLoop_reject_aux
    (f : Rule → CheckContext → List RiskType → Bool × Option RiskItem)
    (ctx : CheckContext) (types : List RiskType) (r : Rule)
    (hen : r.enabled = true) (hmatch : (f r ctx types).1 = true)
    (hact : getActionType r.action = .reject) :
    ∀ (pre : List Rule),
      (∀ p ∈ pre, p.enabled = true → (f p ctx types).1 = true →
        getActionType p.action ≠ .reject) →
      ∀ (risks : List RiskItem) (hs : ℚ) (hsr : ResultType),
        ∃ accRisks : List RiskItem,
          ∀ post : List Rule,
            evalRulesLoop f ctx types (pre ++ r :: post) risks hs hsr =
              { result := .reject, score := r.score, risks := accRisks,
                suggestion := generateRuleSuggestion r, hasExplicitResult := true } := by
  have hfr : ∃ item, f r ctx types = (true, item) := by
    rcases hb : f r ctx types with ⟨b, i⟩
    rw [hb] at hmatch
    simp only at hmatch
    subst hmatch
    exact ⟨i, rfl⟩
  obtain ⟨ritem, hfr⟩ := hfr
  intro pre
  induction pre with
  | nil =>
      intro _ risks hs hsr
      cases ritem with
      | none =>
          refine ⟨risks, fun post => ?_⟩
          simp only [List.nil_append]
          simp [evalRulesLoop, hen, hfr, hact]
      | some it =>
          refine ⟨risks ++ [it], fun post => ?_⟩
          simp only [List.nil_append]
          simp [evalRulesLoop, hen, hfr, hact]
  | cons p pre' ih =>
      intro hpre risks hs hsr
      have hptail : ∀ q ∈ pre', q.enabled = true → (f q ctx types).1 = true →
          getActionType q.action ≠ .reject :=
        fun q hq => hpre q (List.mem_cons_of_mem p hq)
      by_cases hpe : p.enabled = true
      · rcases hfp : f p ctx types with ⟨b, item⟩
        cases b with
        | false =>
            obtain ⟨acc, hacc⟩ := ih hptail risks hs hsr
            refine ⟨acc, fun post => ?_⟩
            simp only [List.cons_append]
            simp only [evalRulesLoop, hpe, hfp, Bool.true_eq_false, if_false]
            exact hacc post
        | true =>
            have hnr : getActionType p.action ≠ .reject :=
              hpre p (List.mem_cons_self p pre') hpe (by rw [hfp])
            cases item with
            | none =>
                obtain ⟨acc, hacc⟩ := ih hptail risks
                  (if hs < p.score then p.score else hs)
                  (if hs < p.score then getActionType p.action else hsr)
                refine ⟨acc, fun post => ?_⟩
                simp only [List.cons_append]
                simp only [evalRulesLoop, hpe, hfp, Bool.true_eq_false, if_false,
                  if_neg hnr]
                exact hacc post
            | some it =>
                obtain ⟨acc, hacc⟩ := ih hptail (risks ++ [it])
                  (if hs < p.score then p.score else hs)
                  (if hs < p.score then getActionType p.action else hsr)
                refine ⟨acc, fun post => ?_⟩
                simp only [List.cons_append]
                simp only [evalRulesLoop, hpe, hfp, Bool.true_eq_false, if_false,
                  if_neg hnr]
                exact hacc post
      · have hpe' : p.enabled = false := by
          revert hpe; cases p.enabled <;> simp
        obtain ⟨acc, hacc⟩ := ih hptail risks hs hsr
        refine ⟨acc, fun post => ?_⟩
        simp only [List.cons_append]
        simp only [evalRulesLoop, hpe', if_pos rfl]
        exact hacc post

/-- C5: in the rule loop of `RuleEngine.Evaluate` (abstracted over the
per-rule matcher `f`, the method `evaluateRule` in the source — which, per
C2, never matches), as soon as a matched enabled rule's action maps to
Reject (`"block"`), evaluation stops immediately with `Result=Reject`,
`Score=rule.Score`, `HasExplicitResult=true` and the rule-derived
suggestion, independently of all lower-priority rules after it. -/
theorem rule_reject_short_circuit
    (f : Rule → CheckContext → List RiskType → Bool × Option RiskItem)
    (ctx : CheckContext) (types : List RiskType) (pre : List Rule) (r : Rule)
    (risks : List RiskItem) (hs : ℚ) (hsr : ResultType)
    (hpre : ∀ p ∈ pre, p.enabled = true → (f p ctx types).1 = true →
      getActionType p.action ≠ .reject)
    (hen : r.enabled = true) (hmatch : (f r ctx types).1 = true)
    (hact : getActionType r.action = .reject) :
    (evalRulesLoop f ctx types (pre ++ [r]) risks hs hsr).result = .reject ∧
    (evalRulesLoop f ctx types (pre ++ [r]) risks hs hsr).score = r.score ∧
    (evalRulesLoop f ctx types (pre ++ [r]) risks hs hsr).hasExplicitResult = true ∧
    (evalRulesLoop f ctx types (pre ++ [r]) risks hs hsr).suggestion =
      generateRuleSuggestion r ∧
    ∀ post, evalRulesLoop f ctx types (pre ++ r :: post) risks hs hsr =
      evalRulesLoop f ctx types (pre ++ [r]) risks hs hsr := by
  obtain ⟨acc, hacc⟩ :=
    evalRulesLoop_reject_aux f ctx types r hen hmatch hact pre hpre risks hs hsr
  refine ⟨?_, ?_, ?_, ?_, fun post => (hacc post).trans (hacc []).symm⟩
  all_goals rw [hacc []]

/-- A matcher that reports a match (with no extra risk item) for every
rule; used to witness the short-circuit theorem. -/
def alwaysMatch : Rule → CheckContext → List RiskType → Bool × Option RiskItem :=
  fun _ _ _ => (true, none)

/-- A concrete evaluation context. -/
def ctxDemo : CheckContext := ⟨"威胁", "a", "chat", [], []⟩

/-- A higher-priority enabled rule whose action maps to Warning. -/
def ruleMark : Rule := ⟨"custom_mark", "自定义标记", "测试规则", true, 20, "mark", 30, []⟩

/-- An enabled rule whose action `"block"` maps to Reject. -/
def ruleBlock : Rule := ⟨"custom_block", "自定义拦截", "测试规则", true, 10, "block", 90, []⟩

/-- Witness for `rule_reject_short_circuit`: with a Warning-action rule
before it, the `"block"` rule's verdict is returned. -/
theorem rule_reject_short_circuit_witness :
    (evalRulesLoop alwaysMatch ctxDemo [] ([ruleMark] ++ [ruleBlock]) [] 0 .pass).result =
      .reject :=
  (rule_reject_short_circuit alwaysMatch ctxDemo [] [ruleMark] ruleBlock [] 0 .pass
    (by decide) rfl rfl rfl).1

/-- C6: with no explicit rule-engine result, `doContentCheck` classifies
the final maximum score through `classifyScore` (its banding step, see
`rule_engine_always_no_result`) with lower-edge-inclusive bands: with the
configured `T = 70`, scores 70, 50, 35 and 10 map to Reject, Review,
Warning and Pass; the bands are exactly `[70,∞) → Reject`,
`[49,70) → Review`, `[35,49) → Warning`, `(-∞,35) → Pass`; and for every
positive threshold a score of exactly `0.5·T` is Warning, not Pass. -/
theorem threshold_banding_lower_edge :
    (classifyScore 70 70 = .reject ∧ classifyScore 70 50 = .review ∧
     classifyScore 70 35 = .warning ∧ classifyScore 70 10 = .pass) ∧
    (∀ s : ℚ,
      (classifyScore 70 s = .reject ↔ 70 ≤ s) ∧
      (classifyScore 70 s = .review ↔ 49 ≤ s ∧ s < 70) ∧
      (classifyScore 70 s = .warning ↔ 35 ≤ s ∧ s < 49) ∧
      (classifyScore 70 s = .pass ↔ s < 35)) ∧
    (∀ T : ℚ, 0 < T → classifyScore T ((1 / 2) * T) = .warning) := by
  refine ⟨by decide, ?_, ?_⟩
  · intro s
    unfold classifyScore
    have h7 : (7 / 10 : ℚ) * 70 = 49 := by norm_num
    have h5 : (1 / 2 : ℚ) * 70 = 35 := by norm_num
    rw [h7, h5]
    split_ifs with h1 h2 h3 <;>
      refine ⟨?_, ?_, ?_, ?_⟩ <;> constructor <;> intro h <;>
      first
        | rfl
        | linarith
        | (exact ⟨by linarith, by linarith⟩)
        | (simp at h)
  · intro T hT
    unfold classifyScore
    rw [if_neg (by linarith), if_neg (by nlinarith), if_pos (by linarith)]

/-- Witness for `threshold_banding_lower_edge` discharging the `0 < T`
hypothesis of its last conjunct at `T = 70`. -/
theorem threshold_banding_lower_edge_witness :
    classifyScore 70 ((1 / 2) * 70) = .warning :=
  threshold_banding_lower_edge.2.2 70 (by norm_num)

/-- C4 counterexample: for content `你真是个废物` with no context items,
`HarassmentDetector.Detect` does **not** return exactly one
Harassment/70.0 item — it returns no items at all, because `废物` is not
in `harassmentKeywords` (it appears only in the semantic and NLP-fallback
word lists). -/
theorem harassment_feiwu_counterexample :
    ¬ ∃ item : RiskItem,
        harassmentDetect ⟨"你真是个废物", "u1", "chat", [], []⟩ = [item] ∧
        item.type = .harassment ∧ item.score = 70 := by
  have h0 : harassmentDetect ⟨"你真是个废物", "u1", "chat", [], []⟩ = [] := by decide
  rintro ⟨item, heq, -, -⟩
  rw [h0] at heq
  cases heq

/-- C4 amended: on `你真是个废物` (no context) the harassment detector
returns no risk items, since `废物` is not among its keywords; on content
containing a listed keyword such as `威胁` it returns exactly one RiskItem
with type Harassment and score 70.0. -/
theorem harassment_keyword_amended :
    harassmentDetect ⟨"你真是个废物", "u1", "chat", [], []⟩ = [] ∧
    harassmentDetect ⟨"你真是个威胁", "u1", "chat", [], []⟩ =
      [{ type := .harassment, score := 70, description := "内容包含骚扰相关关键词",
         details := [("keyword", "威胁")] }] :=
  ⟨by decide, by decide⟩

/-- Every item of the merged list keeps a type already present in the
accumulated list, or carries the merged engine item's type. -/
lemma mergeEngineRisk_type_mem (risks : List RiskItem) (r : RiskItem) :
    ∀ b ∈ mergeEngineRisk risks r, b.type ∈ risks.map (·.type) ∨ b.type = r.type := by
  induction risks with
  | nil =>
      intro b hb
      simp only [mergeEngineRisk, List.mem_singleton] at hb
      subst hb
      exact Or.inr rfl
  | cons e rest ih =>
      intro b hb
      by_cases heq : e.type = r.type
      · simp only [mergeEngineRisk, if_pos heq] at hb
        rcases List.mem_cons.mp hb with hb | hb
        · subst hb
          left
          by_cases hlt : e.score < r.score <;> simp [hlt]
        · left
          exact List.mem_map.mpr ⟨b, List.mem_cons_of_mem e hb, rfl⟩
      · simp only [mergeEngineRisk, if_neg heq] at hb
        rcases List.mem_cons.mp hb with hb | hb
        · subst hb
          exact Or.inl (by simp)
        · rcases ih b hb with hmem | hr
          · left
            simp only [List.map_cons, List.mem_cons]
            exact Or.inr hmem
          · exact Or.inr hr

/-- Merging one engine risk preserves type-uniqueness: an existing item of
the same type is updated in place (its type unchanged), a new type is
appended once. -/
lemma mergeEngineRisk_pairwise (risks : List RiskItem) (r : RiskItem)
    (h : perTypeUnique risks) : perTypeUnique (mergeEngineRisk risks r) := by
  induction risks with
  | nil =>
      simp [mergeEngineRisk, perTypeUnique]
  | cons e rest ih =>
      rcases List.pairwise_cons.mp h with ⟨he, hrest⟩
      by_cases heq : e.type = r.type
      · unfold mergeEngineRisk
        rw [if_pos heq]
        refine List.pairwise_cons.mpr ⟨?_, hrest⟩
        intro b hb
        have : e.type ≠ b.type := he b hb
        by_cases hlt : e.score < r.score <;> simp [hlt, ← heq] <;> exact this
      · unfold mergeEngineRisk
        rw [if_neg heq]
        refine List.pairwise_cons.mpr ⟨?_, ih hrest⟩
        intro b hb
        rcases mergeEngineRisk_type_mem rest r b hb with hmem | hr
        · rcases List.mem_map.mp hmem with ⟨c, hc, hct⟩
          rw [← hct]
          exact he c hc
        · rw [hr]
          exact heq

/-- The engine-merge fold preserves type-uniqueness of the accumulated
list. -/
lemma mergeEngineRisks_pairwise (engineRisks : List RiskItem) :
    ∀ (acc : List RiskItem) (m : ℚ), perTypeUnique acc →
      perTypeUnique (mergeEngineRisks acc engineRisks m).1 := by
  induction engineRisks with
  | nil => intro acc m h; exact h
  | cons r rest ih =>
      intro acc m h
      exact ih (mergeEngineRisk acc r) _ (mergeEngineRisk_pairwise acc r h)

/-- C1 counterexample: `doContentCheck` does **not** guarantee at most one
RiskItem per type.  On content `威胁` with four context messages (two from
the sender, two from user `b`), `HarassmentDetector.Detect` alone emits
three items of type Harassment (keyword 70, repeat-pattern 65, targeting
60); the orchestrator appends all detector risks without merging — only
rule-engine risks are merged by type — so the completed pipeline's risk
list carries three items of the same type. -/
theorem risk_dedup_counterexample :
    ¬ perTypeUnique
        (doContentCheck [harassmentND] engineEmpty cfg70 "威胁" "a" "chat"
          repeatItems []).risks := by decide

/-- C1 amended: the merge-by-type step applies only to rule-engine risks:
whenever the detector-accumulated list already has at most one item per
type, the completed pipeline's risk list keeps at most one item per type
(duplicates merged with the higher score); detector-emitted duplicates of
one type, however, are all retained. -/
theorem merge_dedup_amended (ds : List NamedDetector) (engine : RuleEngine) (cfg : Config)
    (c u s : String) (ci : List ContextItem) (ed : List (String × String))
    (h : perTypeUnique (runDetectors ds ⟨c, u, s, ci, ed⟩).1) :
    perTypeUnique (doContentCheck ds engine cfg c u s ci ed).risks := by
  simp only [doContentCheck]
  split
  · simpa [bandedResult] using h
  · split
    · exact mergeEngineRisks_pairwise _ _ _ h
    · simpa [bandedResult] using mergeEngineRisks_pairwise _ _ _ h

/-- Witness for `merge_dedup_amended` at a pipeline whose two detectors
emit one sensitive-word item and one harassment item. -/
theorem merge_dedup_amended_witness :
    perTypeUnique
      (doContentCheck [sensitiveND, harassmentND] engineEmpty cfg70 "敏感威胁" "a" "chat"
        [] []).risks :=
  merge_dedup_amended [sensitiveND, harassmentND] engineEmpty cfg70 "敏感威胁" "a" "chat"
    [] [] (by decide)

/-- The risks one detector map entry contributes in `doContentCheck`
(a failed detector contributes nothing). -/
def detectorOutput (ctx : CheckContext) (d : NamedDetector) : List RiskItem :=
  match d.detect ctx with
  | none => []
  | some risks => risks

/-- The source's running-maximum update is the lattice `max`. -/
lemma maxStep_eq (a b : ℚ) : (if a < b then b else a) = max a b := by
  rcases lt_or_ge a b with h | h
  · rw [if_pos h, max_eq_right h.le]
  · rw [if_neg (not_lt.mpr h), max_eq_left h]

/-- Closed form of the per-detector risk fold of `doContentCheck`. -/
lemma runDetectors_inner :
    ∀ (risks : List RiskItem) (acc : List RiskItem × ℚ × ℚ),
      risks.foldl
        (fun acc2 risk =>
          (acc2.1 ++ [risk], acc2.2.1 + risk.score,
           if acc2.2.2 < risk.score then risk.score else acc2.2.2)) acc
      = (acc.1 ++ risks, acc.2.1 + (risks.map (·.score)).sum,
         risks.foldl (fun m r => max m r.score) acc.2.2) := by
  intro risks
  induction risks with
  | nil => intro acc; simp
  | cons r rest ih =>
      intro acc
      simp only [List.foldl_cons]
      rw [ih]
      simp only [List.map_cons, List.sum_cons, List.append_assoc, List.singleton_append,
        maxStep_eq]
      rw [add_assoc]

/-- Closed form of the detector loop of `doContentCheck`, for any starting
accumulator. -/
lemma runDetectors_aux (ctx : CheckContext) :
    ∀ (ds : List NamedDetector) (acc : List RiskItem × ℚ × ℚ),
      ds.foldl
        (fun acc d =>
          match d.detect ctx with
          | none => acc
          | some risks =>
              risks.foldl
                (fun acc2 risk =>
                  (acc2.1 ++ [risk], acc2.2.1 + risk.score,
                   if acc2.2.2 < risk.score then risk.score else acc2.2.2))
                acc)
        acc
      = (acc.1 ++ (ds.map (detectorOutput ctx)).flatten,
         acc.2.1 + ((((ds.map (detectorOutput ctx)).flatten)).map (·.score)).sum,
         ((ds.map (detectorOutput ctx)).flatten).foldl (fun m r => max m r.score) acc.2.2) := by
  intro ds
  induction ds with
  | nil => intro acc; simp
  | cons d rest ih =>
      intro acc
      simp only [List.foldl_cons, List.map_cons, List.flatten_cons]
      rcases hd : d.detect ctx with _ | risks
      · simp only [detectorOutput, hd]
        rw [ih]
        simp
      · simp only [detectorOutput, hd]
        rw [runDetectors_inner, ih]
        simp only [List.append_assoc, List.map_append, List.sum_append, List.foldl_append]
        rw [add_assoc]

/-- `runDetectors` concatenates the detector outputs in iteration order,
sums all scores, and takes the running maximum. -/
lemma runDetectors_char (ds : List NamedDetector) (ctx : CheckContext) :
    runDetectors ds ctx =
      ((ds.map (detectorOutput ctx)).flatten,
       (((ds.map (detectorOutput ctx)).flatten).map (·.score)).sum,
       ((ds.map (detectorOutput ctx)).flatten).foldl (fun m r => max m r.score) 0) := by
  unfold runDetectors
  rw [runDetectors_aux]
  simp

/-- Two iteration orders of the same detector set accumulate permuted risk
lists with equal total and maximum scores. -/
lemma runDetectors_perm (dsA dsB : List NamedDetector) (ctx : CheckContext)
    (h : dsA.Perm dsB) :
    (runDetectors dsA ctx).1.Perm (runDetectors dsB ctx).1 ∧
    (runDetectors dsA ctx).2.1 = (runDetectors dsB ctx).2.1 ∧
    (runDetectors dsA ctx).2.2 = (runDetectors dsB ctx).2.2 := by
  have hJ : ((dsA.map (detectorOutput ctx)).flatten).Perm
      ((dsB.map (detectorOutput ctx)).flatten) :=
    (h.map (detectorOutput ctx)).flatten
  rw [runDetectors_char, runDetectors_char]
  refine ⟨hJ, ?_, ?_⟩
  · exact (hJ.map (·.score)).sum_eq
  · exact hJ.foldl_eq' (fun x _ y _ z => by
      show max (max z x.score) y.score = max (max z y.score) x.score
      rw [sup_right_comm]) 0

/-- C3 counterexample: `doContentCheck` iterates the service's
`detectors map[string]detector.Detector` with Go's unordered map `range`,
so two runs on the same input with the same detector set may execute the
detectors in different orders — and then produce differently ordered risk
lists.  Both detector lists below are the same set (a permutation), yet
the risk lists differ. -/
theorem detector_order_counterexample :
    [sensitiveND, harassmentND].Perm [harassmentND, sensitiveND] ∧
    (doContentCheck [sensitiveND, harassmentND] engineEmpty cfg70 "敏感威胁" "a" "chat"
        [] []).risks ≠
      (doContentCheck [harassmentND, sensitiveND] engineEmpty cfg70 "敏感威胁" "a" "chat"
        [] []).risks :=
  ⟨List.Perm.swap harassmentND sensitiveND [], by decide⟩

/-- C3 amended: within one pipeline run the detectors execute sequentially
in the order the map iteration yields, but that order is not fixed across
runs; what *is* run-independent is everything except the list order: for
any two iteration orders of the same detector set the verdict band, the
aggregate risk score, and the multiset of emitted risks coincide — only
the order of the risk list (and hence, e.g., which description a Reject
suggestion quotes) can differ. -/
theorem detector_order_amended (dsA dsB : List NamedDetector) (engine : RuleEngine)
    (cfg : Config) (c u s : String) (ci : List ContextItem)
    (ed : List (String × String)) (h : dsA.Perm dsB) :
    (doContentCheck dsA engine cfg c u s ci ed).result =
      (doContentCheck dsB engine cfg c u s ci ed).result ∧
    (doContentCheck dsA engine cfg c u s ci ed).riskScore =
      (doContentCheck dsB engine cfg c u s ci ed).riskScore ∧
    (doContentCheck dsA engine cfg c u s ci ed).risks.Perm
      (doContentCheck dsB engine cfg c u s ci ed).risks := by
  obtain ⟨hJ, hS, hM⟩ := runDetectors_perm dsA dsB ⟨c, u, s, ci, ed⟩ h
  simp only [doContentCheck, ruleEngineEvaluate_const]
  by_cases hInit : engine.isInit
  · simp only [hInit, if_true]
    simp only [mergeEngineRisks, List.foldl_nil, bandedResult]
    rw [hS, hM]
    exact ⟨rfl, rfl, hJ⟩
  · simp only [hInit, if_false, bandedResult]
    rw [hS, hM]
    exact ⟨rfl, rfl, hJ⟩

/-- Witness for `detector_order_amended` on the two orders of the
counterexample's detector set. -/
theorem detector_order_amended_witness :
    (doContentCheck [sensitiveND, harassmentND] engineEmpty cfg70 "敏感威胁" "a" "chat"
        [] []).result =
      (doContentCheck [harassmentND, sensitiveND] engineEmpty cfg70 "敏感威胁" "a" "chat"
        [] []).result :=
  (detector_order_amended [sensitiveND, harassmentND] [harassmentND, sensitiveND]
    engineEmpty cfg70 "敏感威胁" "a" "chat" [] []
    (List.Perm.swap harassmentND sensitiveND [])).1

/-- No entry of the cache holds a Reject verdict. -/
def noRejectCache (st : CacheState) : Prop :=
  ∀ p ∈ st.entries, p.2.value.result ≠ .reject

/-- A freshly written cache entry is returned unexpired before
`now + ttl`. -/
lemma cacheGet_cacheSet (st : CacheState) (now ttl : Int) (key : String)
    (v : CheckResult) (t₂ : Int) (h : t₂ < now + ttl) :
    cacheGet (cacheSet st now ttl key v) t₂ key = some v := by
  unfold cacheGet cacheSet
  rw [List.find?_cons_of_pos _ (by simp)]
  simp [h]

/-- `CheckContent` never writes a Reject verdict into the cache. -/
lemma checkContent_noReject (ds : List NamedDetector) (engine : RuleEngine) (cfg : Config)
    (hf : String → String) (st : CacheState) (t e : Int) (c u sc : String)
    (ed : List (String × String)) (h : noRejectCache st) :
    noRejectCache (checkContent ds engine cfg hf st t e c u sc ed).2 := by
  simp only [checkContent]
  split
  · exact h
  · split
    · exact h
    · split
      · intro p hp
        rename_i result hcond
        simp only [cacheSet, List.mem_cons] at hp
        rcases hp with hp | hp
        · rw [hp]
          exact hcond
        · exact h p (List.mem_of_mem_filter hp)
      · exact h

/-- A hit on a Reject-free cache is never a Reject verdict. -/
lemma cacheGet_noReject (st : CacheState) (now : Int) (k : String) (r : CheckResult)
    (h : noRejectCache st) (hget : cacheGet st now k = some r) :
    r.result ≠ .reject := by
  unfold cacheGet at hget
  split at hget
  · rename_i p hf
    split at hget
    · rw [← Option.some.inj hget]
      exact h p (List.mem_of_find?_eq_some hf)
    · cases hget
  · cases hget

/-- C7: a non-reject verdict produced by a cache-miss `CheckContent` call
is stored under the content-hash key with the configured TTL, and a repeat
call on the same content before expiry returns exactly the stored result
with `CostTime` reset to 0 and a freshly generated request id, leaving the
cache unchanged; moreover no call ever writes a Reject verdict into the
cache, and a hit on a Reject-free cache can never yield a Reject
verdict. -/
theorem cache_non_reject
    (ds : List NamedDetector) (engine : RuleEngine) (cfg : Config)
    (hashFn : String → String) (st : CacheState) (t₁ e₁ t₂ e₂ : Int)
    (content u₁ u₂ s₁ s₂ : String) (ed₁ ed₂ : List (String × String))
    (r₁ : CheckResult) (st₁ : CacheState)
    (h1 : checkContent ds engine cfg hashFn st t₁ e₁ content u₁ s₁ ed₁ = (some r₁, st₁))
    (hmiss : cacheGet st t₁ ("content_check:" ++ hashFn content) = none)
    (hnr : r₁.result ≠ .reject)
    (ht : t₂ < t₁ + cfg.cacheTTL * 1000000000) :
    checkContent ds engine cfg hashFn st₁ t₂ e₂ content u₂ s₂ ed₂ =
      (some { r₁ with requestID := mkRequestID t₂ u₂, costTime := 0 }, st₁)
    ∧ (∀ (ds' : List NamedDetector) (engine' : RuleEngine) (cfg' : Config)
        (hf' : String → String) (st' : CacheState) (t' e' : Int)
        (c' u' sc' : String) (ed' : List (String × String)),
        noRejectCache st' →
        noRejectCache (checkContent ds' engine' cfg' hf' st' t' e' c' u' sc' ed').2)
    ∧ (∀ (st' : CacheState) (now : Int) (k : String) (r : CheckResult),
        noRejectCache st' → cacheGet st' now k = some r → r.result ≠ .reject) := by
  have hc : (content == "") = false := by
    by_contra hcc
    simp only [Bool.not_eq_false] at hcc
    simp [checkContent, hcc] at h1
  simp only [checkContent, hc, Bool.false_eq_true, if_false, hmiss] at h1
  split at h1
  case isFalse hcond =>
    rw [Prod.mk.injEq] at h1
    obtain ⟨ha, -⟩ := h1
    push_neg at hcond
    have hr : r₁.result = ResultType.reject := by
      rw [← Option.some.inj ha]
      exact hcond
    exact (hnr hr).elim
  case isTrue hcond =>
    rw [Prod.mk.injEq] at h1
    obtain ⟨ha, hb⟩ := h1
    have hR := Option.some.inj ha
    rw [hR] at hb
    subst hb
    refine ⟨?_, checkContent_noReject, cacheGet_noReject⟩
    have hget := cacheGet_cacheSet st t₁ (cfg.cacheTTL * 1000000000)
      ("content_check:" ++ hashFn content) r₁ t₂ ht
    simp only [checkContent, hc, Bool.false_eq_true, if_false, hget]

/-- The result of the first demo call: a Pass verdict on `你好` computed
at time 0 with a 5 ms evaluation. -/
def cacheDemoR1 : CheckResult :=
  { result := .pass, riskScore := 0, risks := [], requestID := "req_0_u1",
    suggestion := "内容审核通过", costTime := 5, extra := [("total_score", "0.00")] }

/-- The cache after the first demo call: the Pass verdict stored under the
content key, expiring at `0 + 300 s`. -/
def cacheDemoSt1 : CacheState :=
  ⟨[("content_check:你好", ⟨cacheDemoR1, 300000000000⟩)]⟩

/-- Witness for `cache_non_reject`: a repeat call at `t = 100` on the same
content returns the stored verdict with a fresh request id and zero cost
time. -/
theorem cache_non_reject_witness :
    checkContent [harassmentND] engineEmpty cfg70 (fun x => x) cacheDemoSt1 100 7
        "你好" "u2" "chat" [] =
      (some { cacheDemoR1 with requestID := mkRequestID 100 "u2", costTime := 0 },
       cacheDemoSt1) :=
  (cache_non_reject [harassmentND] engineEmpty cfg70 (fun x => x) ⟨[]⟩ 0 5 100 7
    "你好" "u1" "u2" "chat" "chat" [] [] cacheDemoR1 cacheDemoSt1
    (by decide) (by decide) (by decide) (by decide)).1

/-- A concrete non-empty evaluation context for the remote detectors. -/
def ctxHi : CheckContext := ⟨"hi", "u", "chat", [], []⟩

/-- C8 counterexample: the AI-backed remote detector (`AIDetector`) has no
fallback latch at all — it holds no `fallbackMode` state.  After a live
analysis call fails (first conjunct: the call errors with the network
attempted), every subsequent `Detect` on non-empty content still attempts
a network call whatever the oracle does (second conjunct); it never
degrades to a local heuristic, contradicting the claim for this
detector. -/
theorem ai_no_latch_counterexample :
    aiDetect ctxHi none = (none, true) ∧
    ∀ net : Option AIResponseBody, (aiDetect ctxHi net).2 = true := by
  refine ⟨rfl, ?_⟩
  intro net
  cases net with
  | none => rfl
  | some resp =>
      have hc : (ctxHi.content == "") = false := by decide
      simp only [aiDetect, hc, Bool.false_eq_true, if_false]
      split <;> rfl

/-- C8 amended: the cloud-NLP (OpenAI-backed) and local-LLM
(Ollama-backed) detectors do maintain the claimed latch: starting from
fallback mode, any sequence of `Detect` calls produces exactly the local
fallback-heuristic results, never attempts a network call, and ends still
in fallback mode; a failing live analysis call flips a non-fallback
detector into fallback mode permanently, already answering that call from
the heuristic.  The AI-backed `AIDetector`, by contrast, has no fallback
mode: every call on non-empty content attempts the network. -/
theorem fallback_latch_amended :
    (∀ (th : ℚ) (calls : List (CheckContext × Option AnalysisResult)),
        runDetectorTrace (nlpDetectStep th) true calls =
          (calls.map (fun c => (nlpFallbackDetect c.1, false)), true))
    ∧ (∀ (th : ℚ) (calls : List (CheckContext × Option AnalysisResult)),
        runDetectorTrace (semanticNlpDetectStep th) true calls =
          (calls.map (fun c => (semanticNlpFallbackDetect c.1, false)), true))
    ∧ (∀ (th : ℚ) (ctx : CheckContext),
        nlpDetectStep th false ctx none = (nlpFallbackDetect ctx, true, true))
    ∧ (∀ (th : ℚ) (ctx : CheckContext),
        semanticNlpDetectStep th false ctx none = (semanticNlpFallbackDetect ctx, true, true))
    ∧ (∀ net : Option AIResponseBody, (aiDetect ctxHi net).2 = true) := by
  refine ⟨?_, ?_, fun th ctx => rfl, fun th ctx => rfl, ?_⟩
  · intro th calls
    induction calls with
    | nil => rfl
    | cons c rest ih =>
        obtain ⟨cc, cn⟩ := c
        simp [runDetectorTrace, nlpDetectStep, ih]
  · intro th calls
    induction calls with
    | nil => rfl
    | cons c rest ih =>
        obtain ⟨cc, cn⟩ := c
        simp [runDetectorTrace, semanticNlpDetectStep, ih]
  · intro net
    cases net with
    | none => rfl
    | some resp =>
        have hc : (ctxHi.content == "") = false := by decide
        simp only [aiDetect, hc, Bool.false_eq_true, if_false]
        split <;> rfl

/-- C10: `SensitiveWords.Update` builds a candidate word set from the
configured files and replaces the active set only when the candidate is
non-empty; when every configured source is unreadable or yields no words
(only blank or `#` lines), the store — in particular its previously
loaded word list — is left completely unchanged. -/
theorem sensitive_update_resilient (fs : String → Option (List String))
    (sw : SensitiveWords)
    (h : ∀ p ∈ sw.filePaths, ∀ lines, fs p = some lines → fileWords lines = []) :
    sensitiveWordsUpdate fs sw = sw := by
  suffices h2 : ∀ paths : List String,
      (∀ p ∈ paths, ∀ lines, fs p = some lines → fileWords lines = []) →
      paths.foldl
        (fun acc path =>
          match fs path with
          | none => acc
          | some lines => (fileWords lines).foldl insertWord acc)
        [] = [] by
    unfold sensitiveWordsUpdate
    rw [h2 sw.filePaths h]
    rfl
  intro paths
  induction paths with
  | nil => intro _; rfl
  | cons p rest ih =>
      intro hall
      simp only [List.foldl_cons]
      rcases hfs : fs p with _ | lines
      · exact ih (fun q hq => hall q (List.mem_cons_of_mem p hq))
      · simp only [hall p (List.mem_cons_self p rest) lines hfs, List.foldl_nil]
        exact ih (fun q hq => hall q (List.mem_cons_of_mem p hq))

/-- Witness for `sensitive_update_resilient`: the configured file is
unreadable, and the previously loaded single-word list survives. -/
theorem sensitive_update_resilient_witness :
    sensitiveWordsUpdate (fun _ => none) ⟨["坏词"], ["config/sensitive_words.txt"]⟩ =
      ⟨["坏词"], ["config/sensitive_words.txt"]⟩ :=
  sensitive_update_resilient (fun _ => none) ⟨["坏词"], ["config/sensitive_words.txt"]⟩
    (by intro p hp lines hl; cases hl)

/-- Appending to a list moves its last element: the last error seen is the
previous last error unless the list was empty. -/
lemma getLast?_cons_or (a : String) (l : List String) :
    (a :: l).getLast? = l.getLast?.or (some a) := by
  cases l with
  | nil => rfl
  | cons b l' =>
      rw [List.getLast?_cons_cons]
      have hs : ((b :: l').getLast?).isSome := by
        rw [List.getLast?_isSome]
        simp
      obtain ⟨c, hc⟩ := Option.isSome_iff_exists.mp hs
      rw [hc]
      rfl

/-- Closed form of the collection loop of `BatchCheckContent`: the result
map lists the successful `(index, result)` deliveries in arrival order,
and `lastError` is the last error in arrival order (or the initial value
when no task failed). -/
lemma collectBatch_char :
    ∀ (l : List (Nat × Except String CheckResult))
      (acc : List (Nat × CheckResult) × Option String),
      l.foldl
        (fun acc task =>
          match task.2 with
          | .error e => (acc.1, some e)
          | .ok r => (acc.1 ++ [(task.1, r)], acc.2))
        acc =
      (acc.1 ++ l.filterMap
          (fun t => match t.2 with | .ok r => some (t.1, r) | .error _ => none),
       ((l.filterMap
          (fun t => match t.2 with | .error e => some e | .ok _ => none)).getLast?).or
         acc.2) := by
  intro l
  induction l with
  | nil => intro acc; simp
  | cons t rest ih =>
      intro acc
      obtain ⟨i, out⟩ := t
      cases out with
      | error e =>
          simp only [List.foldl_cons, List.filterMap_cons]
          rw [ih]
          simp only [getLast?_cons_or, Option.or_assoc]
          rw [show (some e).or acc.2 = some e from rfl]
      | ok r =>
          simp only [List.foldl_cons, List.filterMap_cons]
          rw [ih]
          simp [List.append_assoc]

/-- Every task delivered on the channel carries the request stored at its
index of the truncated input. -/
lemma arrival_entry (items' : List CheckRequest) (arrival : List (Nat × CheckRequest))
    (harr : arrival.Perm items'.enum) :
    ∀ t ∈ arrival, items'[t.1]? = some t.2 := by
  intro t ht
  have hmem : t ∈ items'.enum := harr.mem_iff.mp ht
  obtain ⟨i, req⟩ := t
  exact List.mk_mem_enum_iff_getElem?.mp hmem

/-- A failed index has no entry in the collected result map. -/
lemma find?_resultMap_error (taskEval : Nat → CheckRequest → Except String CheckResult)
    (items' : List CheckRequest) (arrival : List (Nat × CheckRequest))
    (harr : arrival.Perm items'.enum) (i : Nat) (req : CheckRequest) (e : String)
    (hreq : items'[i]? = some req) (he : taskEval i req = .error e) :
    (arrival.filterMap
        (fun t => match taskEval t.1 t.2 with
          | .ok r => some (t.1, r)
          | .error _ => none)).find? (fun p => p.1 == i) = none := by
  rw [List.find?_eq_none]
  intro x hx
  obtain ⟨t, ht, hft⟩ := List.mem_filterMap.mp hx
  rcases hte : taskEval t.1 t.2 with e' | r
  · rw [hte] at hft
    cases hft
  · rw [hte] at hft
    have hx1 : x = (t.1, r) := (Option.some.inj hft).symm
    simp only [hx1, beq_iff_eq]
    intro hti
    rw [hti] at hte
    have ht2 : items'[i]? = some t.2 := by
      have := arrival_entry items' arrival harr t ht
      rwa [hti] at this
    have : t.2 = req := by
      have := ht2.symm.trans hreq
      exact Option.some.inj this
    rw [this] at hte
    rw [he] at hte
    cases hte

/-- A successful index is found in the collected result map with its own
result. -/
lemma find?_resultMap_ok (taskEval : Nat → CheckRequest → Except String CheckResult)
    (items' : List CheckRequest) (arrival : List (Nat × CheckRequest))
    (harr : arrival.Perm items'.enum) (i : Nat) (req : CheckRequest) (r : CheckResult)
    (hreq : items'[i]? = some req) (hok : taskEval i req = .ok r) :
    (arrival.filterMap
        (fun t => match taskEval t.1 t.2 with
          | .ok r => some (t.1, r)
          | .error _ => none)).find? (fun p => p.1 == i) = some (i, r) := by
  have hmem : (i, req) ∈ arrival :=
    harr.mem_iff.mpr (List.mk_mem_enum_iff_getElem?.mpr hreq)
  have hx : (i, r) ∈ arrival.filterMap
      (fun t => match taskEval t.1 t.2 with
        | .ok r => some (t.1, r)
        | .error _ => none) :=
    List.mem_filterMap.mpr ⟨(i, req), hmem, by simp [hok]⟩
  have hsome : ((arrival.filterMap
      (fun t => match taskEval t.1 t.2 with
        | .ok r => some (t.1, r)
        | .error _ => none)).find? (fun p => p.1 == i)).isSome :=
    List.find?_isSome.mpr ⟨(i, r), hx, beq_self_eq_true i⟩
  obtain ⟨p, hp⟩ := Option.isSome_iff_exists.mp hsome
  have hpi := List.find?_some hp
  have hpmem := List.mem_of_find?_eq_some hp
  obtain ⟨t, ht, hft⟩ := List.mem_filterMap.mp hpmem
  rcases hte : taskEval t.1 t.2 with e' | r'
  · rw [hte] at hft
    cases hft
  · rw [hte] at hft
    have hpt : p = (t.1, r') := (Option.some.inj hft).symm
    have hti : t.1 = i := by
      rw [hpt] at hpi
      exact beq_iff_eq.mp hpi
    rw [hti] at hte
    have ht2 : items'[i]? = some t.2 := by
      have := arrival_entry items' arrival harr t ht
      rwa [hti] at this
    have : t.2 = req := Option.some.inj (ht2.symm.trans hreq)
    rw [this, hok] at hte
    have : r' = r := (Except.ok.inj hte).symm
    rw [hp, hpt, hti, this]

/-- Closed form of `BatchCheckContent` on a non-empty batch. -/
lemma batchCheckContent_char (taskEval : Nat → CheckRequest → Except String CheckResult)
    (cfg : Config) (items : List CheckRequest) (batchID : String)
    (arrival : List (Nat × CheckRequest)) (hne : items.isEmpty = false) :
    batchCheckContent taskEval cfg items batchID arrival =
      some (⟨batchID,
             assembleResults
               ((arrival.map (fun t => (t.1, taskEval t.1 t.2))).filterMap
                 (fun t => match t.2 with | .ok r => some (t.1, r) | .error _ => none))
               batchID (truncatedItems cfg items).length,
             0⟩,
            ((arrival.map (fun t => (t.1, taskEval t.1 t.2))).filterMap
              (fun t => match t.2 with | .error e => some e | .ok _ => none)).getLast?) := by
  unfold batchCheckContent collectBatch
  simp only [hne, Bool.false_eq_true, if_false]
  rw [collectBatch_char]
  simp only [List.nil_append, Option.or_none]

/-- Collecting over the channel tuples equals filtering the per-index
outcomes directly. -/
lemma filterMap_map_ok (taskEval : Nat → CheckRequest → Except String CheckResult)
    (arrival : List (Nat × CheckRequest)) :
    (arrival.map (fun t => (t.1, taskEval t.1 t.2))).filterMap
        (fun t => match t.2 with | .ok r => some (t.1, r) | .error _ => none) =
      arrival.filterMap
        (fun t => match taskEval t.1 t.2 with
          | .ok r => some (t.1, r)
          | .error _ => none) := by
  rw [List.filterMap_map]
  rfl

/-- C9: in `BatchCheckContent`, for every completion order of the
dispatched tasks: the output list is index-aligned with the (truncated)
input; an index whose evaluation failed holds the default Pass verdict
(`Result=Pass`, `RiskScore=0`) with `Extra["error"]` set, every other
index holds its own task's result unchanged; and the batch call returns
the last error seen in arrival order — earlier errors are swallowed —
alongside the complete, order-preserved result list. -/
theorem batch_partial_failure
    (taskEval : Nat → CheckRequest → Except String CheckResult)
    (cfg : Config) (items : List CheckRequest) (batchID : String)
    (arrival : List (Nat × CheckRequest)) (b : BatchCheckResult) (err : Option String)
    (harr : arrival.Perm (truncatedItems cfg items).enum)
    (hout : batchCheckContent taskEval cfg items batchID arrival = some (b, err)) :
    b.results.length = (truncatedItems cfg items).length
    ∧ (∀ (i : Nat) (req : CheckRequest), (truncatedItems cfg items)[i]? = some req →
        (∀ e, taskEval i req = Except.error e →
            b.results[i]? = some (defaultPassResult batchID i))
        ∧ (∀ r, taskEval i req = Except.ok r → b.results[i]? = some r))
    ∧ err = ((arrival.map (fun t => (t.1, taskEval t.1 t.2))).filterMap
        (fun t => match t.2 with | .error e => some e | .ok _ => none)).getLast? := by
  have hne : items.isEmpty = false := by
    by_contra hcc
    simp only [Bool.not_eq_false] at hcc
    simp [batchCheckContent, hcc] at hout
  rw [batchCheckContent_char taskEval cfg items batchID arrival hne] at hout
  rw [Option.some.injEq, Prod.mk.injEq] at hout
  obtain ⟨hb, herr⟩ := hout
  subst hb
  subst herr
  refine ⟨?_, ?_, rfl⟩
  · simp [assembleResults]
  · intro i req hreq
    obtain ⟨hi, -⟩ := List.getElem?_eq_some_iff.mp hreq
    constructor
    · intro e he
      simp only [assembleResults, List.getElem?_map, List.getElem?_range hi,
        Option.map_some', filterMap_map_ok,
        find?_resultMap_error taskEval (truncatedItems cfg items) arrival harr i req e
          hreq he]
    · intro r hr
      simp only [assembleResults, List.getElem?_map, List.getElem?_range hi,
        Option.map_some', filterMap_map_ok,
        find?_resultMap_ok taskEval (truncatedItems cfg items) arrival harr i req r
          hreq hr]

deriving instance DecidableEq for Except

/-- A three-item demo batch whose middle item has empty content (the one
input `CheckContent` rejects). -/
def demoItems : List CheckRequest :=
  [⟨"你好", "u1", "chat", "", []⟩, ⟨"", "u2", "chat", "", []⟩, ⟨"嗨", "u3", "chat", "", []⟩]

/-- One batch task: a `CheckContent` run against an empty cache at time 0
(the concurrent goroutine of `BatchCheckContent`). -/
def demoTaskEval : Nat → CheckRequest → Except String CheckResult :=
  fun _i req =>
    match (checkContent [harassmentND] engineEmpty cfg70 (fun x => x) ⟨[]⟩ 0 0
        req.content req.userID req.scene req.extraData).1 with
    | some r => .ok r
    | none => .error "content is empty"

/-- A completion order in which the failing task finishes last. -/
def demoArrival : List (Nat × CheckRequest) :=
  [(2, ⟨"嗨", "u3", "chat", "", []⟩), (0, ⟨"你好", "u1", "chat", "", []⟩),
   (1, ⟨"", "u2", "chat", "", []⟩)]

/-- The demo batch output. -/
def batchDemo : BatchCheckResult × Option String :=
  (batchCheckContent demoTaskEval cfg70 demoItems "b1" demoArrival).getD (⟨"", [], 0⟩, none)

/-- Witness for `batch_partial_failure`: the failed index 1 of the demo
batch is filled with the default Pass placeholder. -/
theorem batch_partial_failure_witness :
    batchDemo.1.results[1]? = some (defaultPassResult "b1" 1) :=
  ((batch_partial_failure demoTaskEval cfg70 demoItems "b1" demoArrival
      batchDemo.1 batchDemo.2 (by decide) (by decide)).2.1 1 ⟨"", "u2", "chat", "", []⟩
    (by decide)).1 "content is empty" (by decide)
